import Mathlib

/-!
Shallow embedding of the Neewer PL81-Pro control program
(src/app/src-tauri/src/protocol.rs and src/app/src-tauri/src/serial.rs).

Bytes are modelled as `Nat` (values produced by the program are < 256);
machine-integer wrap-around is written out as `% 2^w` where the source
arithmetic can wrap (the `u16` checksum accumulator).  Fallible operations
return `Except String` like the Rust `Result<_, String>`.
-/

namespace NeewerControl

/-- `TEMP_MIN_K: u32 = 2900` from protocol.rs. -/
def TEMP_MIN_K : Nat := 2900

/-- `TEMP_MAX_K: u32 = 7000` from protocol.rs. -/
def TEMP_MAX_K : Nat := 7000

/-- `TEMP_STEPS: u32 = 18` from protocol.rs. -/
def TEMP_STEPS : Nat := 18

/-- `checksum` from protocol.rs: sums every byte into a `u16` accumulator
(`data.iter().map(|&b| b as u16).sum()`; each addition wraps modulo 2^16 in
release builds, written out as `% 65536`), then emits `[(s >> 8) as u8,
(s & 0xFF) as u8]`, i.e. the big-endian bytes of the accumulator.  Since the
accumulator is `< 65536`, `(s >> 8) as u8 = s / 256` and `s & 0xFF = s % 256`
exactly. -/
def checksum (data : List Nat) : List Nat :=
  let s := data.foldl (fun acc b => (acc + b) % 65536) 0
  [s / 256, s % 256]

/-- `build_packet` from protocol.rs: payload followed by its checksum. -/
def build_packet (payload : List Nat) : List Nat :=
  payload ++ checksum payload

/-- `kelvin_to_byte` from protocol.rs.  The source clamps `kelvin` to
`[2900, 7000]` and computes
`((k - 2900) as f64 * 18.0 / 4100.0).round() as u8`, then takes `min 18`.
For every clamped `k`, `18 * (k - 2900) ≤ 73800` is exactly representable in
`f64`; the exact quotient `9 * (k - 2900) / 2050` is either an exactly
representable half-integer (only at `k - 2900 ∈ {1025, 3075}`) or at distance
at least `1/2050` from any half-integer, which dwarfs the rounding error of
the `f64` division (< 2^-40), so Rust's `.round()` (round half away from
zero, which on nonnegative values is `⌊x + 1/2⌋`) computes exactly
`(18 * (k - 2900) + 2050) / 4100` in integer division.  The `as u8` cast is
exact because the result is at most 18. -/
def kelvin_to_byte (kelvin : Nat) : Nat :=
  let k := min (max kelvin TEMP_MIN_K) TEMP_MAX_K
  let step := (18 * (k - TEMP_MIN_K) + 2050) / 4100
  min step TEMP_STEPS

/-- `byte_to_kelvin` from protocol.rs: clamp the byte to `[0, 18]`, then
`TEMP_MIN_K + (b * (TEMP_MAX_K - TEMP_MIN_K) + TEMP_STEPS / 2) / TEMP_STEPS`
in `u32` arithmetic (no overflow is possible: the intermediate is at most
`18 * 4100 + 9`). -/
def byte_to_kelvin (b : Nat) : Nat :=
  let b := min b TEMP_STEPS
  TEMP_MIN_K + (b * (TEMP_MAX_K - TEMP_MIN_K) + TEMP_STEPS / 2) / TEMP_STEPS

/-- `cct_command` from protocol.rs: clamp brightness with `min(100)`,
convert kelvin with `kelvin_to_byte`, and build the packet over the payload
`[0x3A, 0x02, 0x03, 0x01, bri, temp]`. -/
def cct_command (brightness kelvin : Nat) : List Nat :=
  let bri := min brightness 100
  let temp := kelvin_to_byte kelvin
  build_packet [0x3A, 0x02, 0x03, 0x01, bri, temp]

/-- `parse_status` from protocol.rs: requires at least 8 bytes,
`data[0] == 0x3A`, `data[1] == 0x02`, recomputes the checksum over
`data[..6]` and compares it with `data[6]`, `data[7]`; returns
`Some((data[4], data[5]))` on success and `None` otherwise. -/
def parse_status (data : List Nat) : Option (Nat × Nat) :=
  if 8 ≤ data.length ∧ data.getD 0 0 = 0x3A ∧ data.getD 1 0 = 0x02 then
    let expected := checksum (data.take 6)
    if data.getD 6 0 = expected.getD 0 0 ∧ data.getD 7 0 = expected.getD 1 0 then
      some (data.getD 4 0, data.getD 5 0)
    else
      none
  else
    none

/-- The `LightStatus` record from serial.rs (`brightness: u8`,
`kelvin: u32`). -/
structure LightStatus where
  brightness : Nat
  kelvin : Nat
deriving DecidableEq, Repr

/-- The observable state of `SerialManager` from serial.rs: the stored port
handle (`Mutex<Option<Box<dyn SerialPort>>>`, handles abstracted as `Nat`)
and the `reading` liveness flag (`Arc<AtomicBool>`). -/
structure MState where
  port : Option Nat
  reading : Bool
deriving DecidableEq, Repr

/-- `SerialManager::new` from serial.rs: no port, reading flag false. -/
def MState.new : MState := { port := none, reading := false }

/-- `SerialManager::connect` from serial.rs.  The outcomes of the two
external I/O calls (`serialport::new(..).open()` and `port.try_clone()`)
are passed in as parameters.  The source first clears the `reading` flag,
then opens the port (on failure it returns
`Err(format!("Failed to open {path}: {e}"))` — the stored port handle is
left untouched), then clones the handle (on failure
`Err(format!("Failed to clone port: {e}"))`, stored handle again
untouched), and only then stores the new handle, sets `reading` to true and
spawns the read loop. -/
def connect (st : MState) (path : String)
    (openRes : Except String Nat) (cloneRes : Nat → Except String Nat) :
    MState × Except String Unit :=
  let st1 : MState := { st with reading := false }
  match openRes with
  | Except.error e =>
      (st1, Except.error ("Failed to open " ++ path ++ ": " ++ e))
  | Except.ok p =>
      match cloneRes p with
      | Except.error e =>
          (st1, Except.error ("Failed to clone port: " ++ e))
      | Except.ok _reader =>
          ({ port := some p, reading := true }, Except.ok ())

/-- `SerialManager::write` from serial.rs: fails with `"Port not open"`
when no port is stored; otherwise performs `write_all` then `flush`, whose
external outcomes are passed in, wrapping their errors as the source
does. -/
def write (st : MState) (writeRes flushRes : Except String Unit) :
    Except String Unit :=
  match st.port with
  | none => Except.error "Port not open"
  | some _ =>
      match writeRes with
      | Except.error e => Except.error ("Write failed: " ++ e)
      | Except.ok _ =>
          match flushRes with
          | Except.error e => Except.error ("Flush failed: " ++ e)
          | Except.ok _ => Except.ok ()

/-- `SerialManager::is_connected` from serial.rs: whether a port handle is
stored. -/
def is_connected (st : MState) : Bool := st.port.isSome

/-- `SerialManager::disconnect` from serial.rs: clear the reading flag and
drop the stored port handle.  It returns `()` (cannot fail). -/
def disconnect (_st : MState) : MState := { port := none, reading := false }

/-- One iteration of the frame-extraction loop body in `read_loop`
(serial.rs), including the `while accum.len() >= 8` guard: with fewer than
8 buffered bytes the body does not run at all and the buffer is untouched.
Otherwise: find the first `0x3A` (`accum.iter().position(..)`); if none,
clear the whole buffer; else drain the bytes before it, stop if fewer than
8 bytes remain, and otherwise feed the 8-byte window to `parse_status`
(emitting a `LightStatus` with `byte_to_kelvin` applied to the temperature
byte on success) and drain exactly those 8 bytes.  Returns the emitted
event, if any, and the new buffer. -/
def read_pass (accum : List Nat) : Option LightStatus × List Nat :=
  if accum.length < 8 then (none, accum)
  else
    match accum.findIdx? (fun b => b == 0x3A) with
    | none => (none, [])
    | some start =>
        let rest := accum.drop start
        if rest.length < 8 then (none, rest)
        else
          ((parse_status (rest.take 8)).map
              (fun p => LightStatus.mk p.1 (byte_to_kelvin p.2)),
           rest.drop 8)

/-- The full frame-extraction loop of `read_loop` (serial.rs), run to
completion on an accumulation buffer, with explicit fuel for structural
recursion.  Every iteration that recurses drains at least 8 bytes, so
`accum.length` iterations always suffice (see `read_extract`). -/
def read_extract_fuel : Nat → List Nat → List LightStatus × List Nat
  | 0, accum => ([], accum)
  | fuel + 1, accum =>
      if accum.length < 8 then ([], accum)
      else
        match accum.findIdx? (fun b => b == 0x3A) with
        | none => ([], [])
        | some start =>
            let rest := accum.drop start
            if rest.length < 8 then ([], rest)
            else
              let emit := (parse_status (rest.take 8)).map
                (fun p => LightStatus.mk p.1 (byte_to_kelvin p.2))
              let next := read_extract_fuel fuel (rest.drop 8)
              (emit.toList ++ next.1, next.2)

/-- The frame-extraction loop of `read_loop` on a buffer: the list of all
`light-status` events emitted during this drain of the buffer, and the
buffer contents left for the next read. -/
def read_extract (accum : List Nat) : List LightStatus × List Nat :=
  read_extract_fuel accum.length accum

/-! ### Helper lemmas -/

theorem foldl_wrap_eq_sum_mod (l : List Nat) :
    ∀ acc : Nat,
      l.foldl (fun a b => (a + b) % 65536) (acc % 65536) = (acc + l.sum) % 65536 := by
  induction l with
  | nil => intro acc; simp
  | cons b t ih =>
      intro acc
      simp only [List.foldl_cons, List.sum_cons]
      have h1 : (acc % 65536 + b) % 65536 = (acc + b) % 65536 := by omega
      rw [h1, ih (acc + b), Nat.add_assoc]

theorem checksum_eq_sum_mod (l : List Nat) :
    checksum l = [l.sum % 65536 / 256, l.sum % 65536 % 256] := by
  have h := foldl_wrap_eq_sum_mod l 0
  simp only [Nat.zero_mod, Nat.zero_add] at h
  simp only [checksum, h]

theorem kelvin_to_byte_le (k : Nat) : kelvin_to_byte k ≤ 18 := by
  simp only [kelvin_to_byte, TEMP_MIN_K, TEMP_MAX_K, TEMP_STEPS]
  omega

theorem byte_to_kelvin_bounds (t : Nat) :
    2900 ≤ byte_to_kelvin t ∧ byte_to_kelvin t ≤ 7000 := by
  simp only [byte_to_kelvin, TEMP_MIN_K, TEMP_MAX_K, TEMP_STEPS]
  omega

theorem parse_status_some_iff (data : List Nat) (p : Nat × Nat) :
    parse_status data = some p ↔
      8 ≤ data.length ∧ data.getD 0 0 = 0x3A ∧ data.getD 1 0 = 0x02 ∧
      [data.getD 6 0, data.getD 7 0] = checksum (data.take 6) ∧
      p = (data.getD 4 0, data.getD 5 0) := by
  simp only [parse_status, checksum]
  split
  · next h1 =>
      split
      · next h2 =>
          simp only [Option.some.injEq, List.cons.injEq, and_true]
          constructor
          · intro h
            exact ⟨h1.1, h1.2.1, h1.2.2, ⟨h2.1, h2.2⟩, h.symm⟩
          · intro h
            exact h.2.2.2.2.symm
      · next h2 =>
          simp only [List.cons.injEq, and_true]
          constructor
          · intro h; cases h
          · intro h
            exact absurd ⟨h.2.2.2.1.1, h.2.2.2.1.2⟩ h2
  · next h1 =>
      simp only [List.cons.injEq, and_true]
      constructor
      · intro h; cases h
      · intro h
        exact absurd ⟨h.1, h.2.1, h.2.2.1⟩ h1

/-! ### Claim theorems -/

/-- C4: for every byte `b` in `[0,18]`, `kelvin_to_byte (byte_to_kelvin b) = b`;
and for every kelvin value `k`, `byte_to_kelvin (kelvin_to_byte k)` differs
from the clamp of `k` to `[2900,7000]` by at most one quantization step
(≤ 228 K). -/
theorem kelvin_roundtrip :
    (∀ b : Nat, b ≤ 18 → kelvin_to_byte (byte_to_kelvin b) = b) ∧
    (∀ k : Nat,
      byte_to_kelvin (kelvin_to_byte k) ≤ min (max k 2900) 7000 + 228 ∧
      min (max k 2900) 7000 ≤ byte_to_kelvin (kelvin_to_byte k) + 228) := by
  constructor
  · have h : ∀ b < 19, kelvin_to_byte (byte_to_kelvin b) = b := by decide
    intro b hb
    exact h b (by omega)
  · intro k
    simp only [kelvin_to_byte, byte_to_kelvin, TEMP_MIN_K, TEMP_MAX_K, TEMP_STEPS]
    omega

/-- C4 witness: the round-trip theorem instantiated at byte 9 and at
4321 K. -/
theorem kelvin_roundtrip_witness :
    kelvin_to_byte (byte_to_kelvin 9) = 9 ∧
    (byte_to_kelvin (kelvin_to_byte 4321) ≤ min (max 4321 2900) 7000 + 228 ∧
     min (max 4321 2900) 7000 ≤ byte_to_kelvin (kelvin_to_byte 4321) + 228) :=
  ⟨kelvin_roundtrip.1 9 (by decide), kelvin_roundtrip.2 4321⟩

/-- C5: `parse_status data` returns `some (data[4], data[5])` exactly when
`data` has at least 8 bytes, `data[0] = 0x3A`, `data[1] = 0x02`, and
`data[6..8]` equals the recomputed checksum of `data[0..6]`; in every other
case it returns `none`. -/
theorem parse_status_spec (data : List Nat) (p : Nat × Nat) :
    (parse_status data = some p ↔
      8 ≤ data.length ∧ data.getD 0 0 = 0x3A ∧ data.getD 1 0 = 0x02 ∧
      [data.getD 6 0, data.getD 7 0] = checksum (data.take 6) ∧
      p = (data.getD 4 0, data.getD 5 0)) ∧
    (parse_status data = none ↔
      ¬ (8 ≤ data.length ∧ data.getD 0 0 = 0x3A ∧ data.getD 1 0 = 0x02 ∧
         [data.getD 6 0, data.getD 7 0] = checksum (data.take 6))) := by
  constructor
  · exact parse_status_some_iff data p
  · constructor
    · intro hn hc
      have h := (parse_status_some_iff data (data.getD 4 0, data.getD 5 0)).mpr
        ⟨hc.1, hc.2.1, hc.2.2.1, hc.2.2.2, rfl⟩
      rw [hn] at h
      cases h
    · intro hc
      cases hp : parse_status data with
      | none => rfl
      | some q =>
          have h := (parse_status_some_iff data q).mp hp
          exact absurd ⟨h.1, h.2.1, h.2.2.1, h.2.2.2.1⟩ hc

/-- C6: `cct_command` clamps brightness with `min _ 100` (never rejects),
uses `kelvin_to_byte` for the temperature byte, and returns the 8-byte
packet `payload ++ checksum payload` over
`[0x3A, 0x02, 0x03, 0x01, clamped, temp]`; concretely
`cct_command 100 7000 = [0x3A, 0x02, 0x03, 0x01, 0x64, 0x12, 0x00, 0xB6]`. -/
theorem cct_command_spec :
    (∀ b k : Nat,
      cct_command b k =
        [0x3A, 0x02, 0x03, 0x01, min b 100, kelvin_to_byte k] ++
          checksum [0x3A, 0x02, 0x03, 0x01, min b 100, kelvin_to_byte k] ∧
      (cct_command b k).length = 8 ∧
      (cct_command b k).getD 4 0 = min b 100 ∧
      (cct_command b k).getD 5 0 = kelvin_to_byte k ∧
      min b 100 ≤ 100) ∧
    cct_command 100 7000 = [0x3A, 0x02, 0x03, 0x01, 0x64, 0x12, 0x00, 0xB6] := by
  constructor
  · intro b k
    exact ⟨rfl, rfl, rfl, rfl, Nat.min_le_right b 100⟩
  · decide

/-- C7: the quantization boundary values are exact, `kelvin_to_byte` clamps
its input to `[2900, 7000]`, and its result is at most 18. -/
theorem quantization_boundaries :
    kelvin_to_byte 2900 = 0 ∧ kelvin_to_byte 7000 = 18 ∧
    kelvin_to_byte 4950 = 9 ∧
    byte_to_kelvin 0 = 2900 ∧ byte_to_kelvin 18 = 7000 ∧
    (∀ k : Nat, kelvin_to_byte k = kelvin_to_byte (min (max k 2900) 7000)) ∧
    (∀ k : Nat, kelvin_to_byte k ≤ 18) := by
  refine ⟨by decide, by decide, by decide, by decide, by decide, ?_, kelvin_to_byte_le⟩
  intro k
  simp only [kelvin_to_byte, TEMP_MIN_K, TEMP_MAX_K, TEMP_STEPS]
  omega

/-- C8: `checksum` returns the two big-endian bytes of the sum of its input
taken modulo 2^16 (wrapping accumulator), and
`checksum [0x3A, 0x02, 0x03, 0x01, 0x64, 0x09] = [0x00, 0xAD]`. -/
theorem checksum_spec :
    (∀ data : List Nat,
      checksum data = [data.sum % 65536 / 256, data.sum % 65536 % 256] ∧
      (checksum data).length = 2) ∧
    checksum [0x3A, 0x02, 0x03, 0x01, 0x64, 0x09] = [0x00, 0xAD] := by
  exact ⟨fun data => ⟨checksum_eq_sum_mod data, rfl⟩, by decide⟩

/-- C10: `checksum` on a list whose sum stays at or below `6 * 255 = 1530`
never wraps its 16-bit accumulator (the modulo is the identity); the two
call sites in the program satisfy this bound: the 6-byte `cct_command`
payload, and `data.take 6` in `parse_status` for byte-valued input. -/
theorem checksum_no_wrap :
    (∀ l : List Nat, l.sum ≤ 1530 → checksum l = [l.sum / 256, l.sum % 256]) ∧
    (∀ b k : Nat,
      ([0x3A, 0x02, 0x03, 0x01, min b 100, kelvin_to_byte k] : List Nat).length = 6 ∧
      ([0x3A, 0x02, 0x03, 0x01, min b 100, kelvin_to_byte k] : List Nat).sum ≤ 1530) ∧
    (∀ data : List Nat, (∀ x ∈ data, x < 256) →
      (data.take 6).length ≤ 6 ∧ (data.take 6).sum ≤ 1530) := by
  refine ⟨?_, ?_, ?_⟩
  · intro l hl
    have h := checksum_eq_sum_mod l
    rwa [Nat.mod_eq_of_lt (by omega : l.sum < 65536)] at h
  · intro b k
    refine ⟨rfl, ?_⟩
    have h1 : min b 100 ≤ 100 := Nat.min_le_right b 100
    have h2 : kelvin_to_byte k ≤ 18 := kelvin_to_byte_le k
    simp only [List.sum_cons, List.sum_nil]
    omega
  · intro data h
    have hlen : (data.take 6).length ≤ 6 :=
      le_trans (data.length_take 6).le (Nat.min_le_left 6 data.length)
    refine ⟨hlen, ?_⟩
    have hmem : ∀ x ∈ data.take 6, x < 256 := fun x hx => h x (List.take_subset 6 data hx)
    have hsum : ∀ l : List Nat, (∀ x ∈ l, x < 256) → l.sum ≤ 255 * l.length := by
      intro l
      induction l with
      | nil => intro _; simp
      | cons a t ih =>
          intro hl
          simp only [List.sum_cons, List.length_cons]
          have ha : a < 256 := hl a (List.mem_cons_self a t)
          have ht := ih fun x hx => hl x (List.mem_cons_of_mem a hx)
          omega
    have := hsum (data.take 6) hmem
    omega

/-- C10 witness: the accumulator bound applied at the concrete list
`[0x3A, 0x02, 0x03, 0x01, 0x64, 0x09]` and at `cct_command`'s payload for
brightness 100 / 7000 K, and the `parse_status` slice bound at that same
frame. -/
theorem checksum_no_wrap_witness :
    checksum [0x3A, 0x02, 0x03, 0x01, 0x64, 0x09] =
      [([0x3A, 0x02, 0x03, 0x01, 0x64, 0x09] : List Nat).sum / 256,
       ([0x3A, 0x02, 0x03, 0x01, 0x64, 0x09] : List Nat).sum % 256] ∧
    (([0x3A, 0x02, 0x03, 0x01, min 100 100, kelvin_to_byte 7000] : List Nat).length = 6 ∧
     ([0x3A, 0x02, 0x03, 0x01, min 100 100, kelvin_to_byte 7000] : List Nat).sum ≤ 1530) ∧
    (([0x3A, 0x02, 0x03, 0x01, 0x64, 0x09, 0x00, 0xAD] : List Nat).take 6).length ≤ 6 ∧
    (([0x3A, 0x02, 0x03, 0x01, 0x64, 0x09, 0x00, 0xAD] : List Nat).take 6).sum ≤ 1530 :=
  ⟨checksum_no_wrap.1 [0x3A, 0x02, 0x03, 0x01, 0x64, 0x09] (by decide),
   checksum_no_wrap.2.1 100 7000,
   checksum_no_wrap.2.2 [0x3A, 0x02, 0x03, 0x01, 0x64, 0x09, 0x00, 0xAD] (by decide)⟩

/-- C2 counterexample: with a live previous connection (`port = some 0`),
a failing `connect` returns an error but `is_connected` is still `true`
afterwards — the old handle is not dropped, so the state is not
`Disconnected` as the claim requires. -/
theorem connect_failure_keeps_old_port :
    (connect (MState.mk (some 0) true) "p" (Except.error "busy") Except.ok).2 =
      Except.error "Failed to open p: busy" ∧
    is_connected
      (connect (MState.mk (some 0) true) "p" (Except.error "busy") Except.ok).1 = true :=
  ⟨rfl, rfl⟩

/-- C2 amended: if `connect` fails (open or clone fails), it returns an
error value (total function, no panic), clears the `reading` flag, and
leaves the stored port handle unchanged — so `is_connected` afterwards
equals `is_connected` before the call (in particular it stays `false` when
no previous connection was held, but stays `true` when one was). -/
theorem connect_failure_state (st : MState) (path : String)
    (openRes : Except String Nat) (cloneRes : Nat → Except String Nat) :
    (∀ e, openRes = Except.error e →
      connect st path openRes cloneRes =
        (MState.mk st.port false,
         Except.error ("Failed to open " ++ path ++ ": " ++ e))) ∧
    (∀ p e, openRes = Except.ok p → cloneRes p = Except.error e →
      connect st path openRes cloneRes =
        (MState.mk st.port false, Except.error ("Failed to clone port: " ++ e))) ∧
    is_connected (MState.mk st.port false) = is_connected st := by
  refine ⟨?_, ?_, rfl⟩
  · rintro e rfl
    rfl
  · rintro p e rfl hc
    simp only [connect, hc]

/-- C2 witness: a failing open from the fresh (disconnected) manager state
leaves `is_connected` false; a failing clone does likewise. -/
theorem connect_failure_state_witness :
    (connect MState.new "/dev/ttyUSB0" (Except.error "busy") Except.ok =
      (MState.mk MState.new.port false,
       Except.error "Failed to open /dev/ttyUSB0: busy")) ∧
    (connect MState.new "/dev/ttyUSB0" (Except.ok 3)
        (fun _ => Except.error "dup") =
      (MState.mk MState.new.port false, Except.error "Failed to clone port: dup")) ∧
    is_connected (MState.mk MState.new.port false) = is_connected MState.new :=
  ⟨(connect_failure_state MState.new "/dev/ttyUSB0" (Except.error "busy")
      Except.ok).1 "busy" rfl,
   (connect_failure_state MState.new "/dev/ttyUSB0" (Except.ok 3)
      (fun _ => Except.error "dup")).2.1 3 "dup" rfl rfl,
   (connect_failure_state MState.new "/dev/ttyUSB0" (Except.error "busy")
      Except.ok).2.2⟩

/-- C9: after `disconnect`, `is_connected` is false and any `write` fails
with the `"Port not open"` error regardless of the I/O outcomes; and
`disconnect` is idempotent — a second call leaves the state exactly as
after the first (and, being total, produces no error). -/
theorem disconnect_spec (st : MState) (writeRes flushRes : Except String Unit) :
    is_connected (disconnect st) = false ∧
    write (disconnect st) writeRes flushRes = Except.error "Port not open" ∧
    disconnect (disconnect st) = disconnect st :=
  ⟨rfl, rfl, rfl⟩

/-- C3 counterexample: the buffer `[0]` contains no sentinel byte, yet one
pass of the frame extraction leaves it untouched instead of discarding it —
the `while accum.len() >= 8` guard skips buffers shorter than 8 bytes. -/
theorem read_pass_short_buffer_kept :
    ((0 : Nat) ≠ 0x3A) ∧ read_pass [0] = (none, [0]) ∧
      (read_pass [0]).2 ≠ [] := by
  refine ⟨by decide, rfl, by decide⟩

/-- C3 amended: a pass of the frame extraction runs only when the buffer
holds at least 8 bytes; buffers shorter than 8 bytes are left unchanged.
When a pass runs: if no sentinel `0x3A` occurs, the whole buffer is
discarded; otherwise all bytes before the first sentinel are discarded,
and if at least 8 bytes remain from the sentinel, exactly those 8 bytes are
consumed (whether or not they parse as a valid frame), else the remainder
is kept for further input. -/
theorem read_pass_spec (accum : List Nat) :
    (accum.length < 8 → read_pass accum = (none, accum)) ∧
    (8 ≤ accum.length → (∀ x ∈ accum, x ≠ 0x3A) →
      read_pass accum = (none, [])) ∧
    (∀ start, 8 ≤ accum.length →
      accum.findIdx? (fun b => b == 0x3A) = some start →
      (accum.length - start < 8 → read_pass accum = (none, accum.drop start)) ∧
      (8 ≤ accum.length - start →
        read_pass accum =
          ((parse_status ((accum.drop start).take 8)).map
              (fun p => LightStatus.mk p.1 (byte_to_kelvin p.2)),
           accum.drop (start + 8)))) := by
  refine ⟨?_, ?_, ?_⟩
  · intro h
    simp only [read_pass, if_pos h]
  · intro h hno
    have hf : accum.findIdx? (fun b => b == 0x3A) = none := by
      rw [List.findIdx?_eq_none_iff]
      intro x hx
      simp only [beq_eq_false_iff_ne, ne_eq]
      exact hno x hx
    simp only [read_pass, if_neg (by omega : ¬ accum.length < 8), hf]
  · intro start h hf
    constructor
    · intro hrem
      simp only [read_pass, if_neg (by omega : ¬ accum.length < 8), hf]
      rw [if_pos (by rw [List.length_drop]; omega)]
    · intro hrem
      simp only [read_pass, if_neg (by omega : ¬ accum.length < 8), hf]
      rw [if_neg (by rw [List.length_drop]; omega), List.drop_drop]

/-- C3 witness: on the 10-byte buffer `[7, 0x3A, 2, 3, 1, 4, 5, 6, 7, 8]`
with the first sentinel at index 1, a pass consumes the leading garbage
byte plus the 8-byte window; on the 3-byte buffer `[7, 0x3A, 2]` no pass
runs and the buffer is unchanged. -/
theorem read_pass_spec_witness :
    (read_pass [7, 0x3A, 2, 3, 1, 4, 5, 6, 7, 8] =
      ((parse_status (([7, 0x3A, 2, 3, 1, 4, 5, 6, 7, 8] : List Nat).drop 1 |>.take 8)).map
          (fun p => LightStatus.mk p.1 (byte_to_kelvin p.2)),
       ([7, 0x3A, 2, 3, 1, 4, 5, 6, 7, 8] : List Nat).drop (1 + 8))) ∧
    read_pass [7, 0x3A, 2] = (none, [7, 0x3A, 2]) :=
  ⟨((read_pass_spec [7, 0x3A, 2, 3, 1, 4, 5, 6, 7, 8]).2.2 1 (by decide)
      (by decide)).2 (by decide),
   (read_pass_spec [7, 0x3A, 2]).1 (by decide)⟩

theorem read_extract_fuel_mem (fuel : Nat) :
    ∀ (accum : List Nat) (s : LightStatus),
      s ∈ (read_extract_fuel fuel accum).1 →
      2900 ≤ s.kelvin ∧ s.kelvin ≤ 7000 ∧
      ∃ i t,
        ((accum.drop i).take 8).length = 8 ∧
        parse_status ((accum.drop i).take 8) = some (s.brightness, t) ∧
        s.kelvin = byte_to_kelvin t ∧
        [((accum.drop i).take 8).getD 6 0, ((accum.drop i).take 8).getD 7 0] =
          checksum (((accum.drop i).take 8).take 6) := by
  induction fuel with
  | zero =>
      intro accum s hs
      simp [read_extract_fuel] at hs
  | succ n ih =>
      intro accum s hs
      simp only [read_extract_fuel] at hs
      split at hs
      · simp at hs
      · split at hs
        · simp at hs
        · next start hf =>
            split at hs
            · simp at hs
            · next hlen =>
                simp only [List.mem_append] at hs
                rcases hs with hs | hs
                · cases hp : parse_status ((accum.drop start).take 8) with
                  | none =>
                      rw [hp] at hs
                      simp at hs
                  | some p =>
                      rw [hp] at hs
                      simp only [Option.map_some', Option.toList_some,
                        List.mem_singleton] at hs
                      subst hs
                      have hb := byte_to_kelvin_bounds p.2
                      refine ⟨hb.1, hb.2, start, p.2, ?_, hp, rfl, ?_⟩
                      · rw [List.length_take, List.length_drop]
                        rw [List.length_drop] at hlen
                        omega
                      · exact ((parse_status_some_iff _ p).mp hp).2.2.2.1
                · obtain ⟨h1, h2, i, t, h3, h4, h5, h6⟩ :=
                    ih ((accum.drop start).drop 8) s hs
                  simp only [List.drop_drop] at h3 h4 h6
                  exact ⟨h1, h2, _, t, h3, h4, h5, h6⟩

/-- C1 counterexample: the checksum-valid status frame
`[0x3A, 0x02, 0x00, 0x00, 0xC8, 0x00, 0x01, 0x04]` carries brightness byte
`0xC8 = 200`; the read loop emits it as-is, so the published light-status
does not satisfy `brightness ≤ 100` as the claim requires. -/
theorem read_loop_brightness_unclamped :
    read_extract [0x3A, 0x02, 0x00, 0x00, 0xC8, 0x00, 0x01, 0x04] =
      ([LightStatus.mk 200 2900], []) ∧
    ¬ (LightStatus.mk 200 2900).brightness ≤ 100 :=
  ⟨by decide, by decide⟩

/-- C1 amended: every light-status event emitted by the read loop's frame
extraction has its kelvin field in `[2900, 7000]` and originates from a
checksum-valid 8-byte window of the buffer whose byte 4 is the published
brightness (the brightness byte is passed through unvalidated, so it ranges
over `[0, 255]`, not `[0, 100]`). -/
theorem read_loop_status_fields (accum : List Nat) (s : LightStatus)
    (hs : s ∈ (read_extract accum).1) :
    2900 ≤ s.kelvin ∧ s.kelvin ≤ 7000 ∧
    ∃ i t,
      ((accum.drop i).take 8).length = 8 ∧
      parse_status ((accum.drop i).take 8) = some (s.brightness, t) ∧
      s.kelvin = byte_to_kelvin t ∧
      [((accum.drop i).take 8).getD 6 0, ((accum.drop i).take 8).getD 7 0] =
        checksum (((accum.drop i).take 8).take 6) :=
  read_extract_fuel_mem accum.length accum s hs

/-- C1 witness: the amended theorem applied to the buffer holding the
single valid frame `[0x3A, 0x02, 0x03, 0x01, 50, 9, 0, 123]`, whose
emitted status is brightness 50 at 4950 K. -/
theorem read_loop_status_fields_witness :
    2900 ≤ (LightStatus.mk 50 4950).kelvin ∧
    (LightStatus.mk 50 4950).kelvin ≤ 7000 ∧
    ∃ i t,
      ((([0x3A, 0x02, 0x03, 0x01, 50, 9, 0, 123] : List Nat).drop i).take 8).length = 8 ∧
      parse_status
          ((([0x3A, 0x02, 0x03, 0x01, 50, 9, 0, 123] : List Nat).drop i).take 8) =
        some ((LightStatus.mk 50 4950).brightness, t) ∧
      (LightStatus.mk 50 4950).kelvin = byte_to_kelvin t ∧
      [((([0x3A, 0x02, 0x03, 0x01, 50, 9, 0, 123] : List Nat).drop i).take 8).getD 6 0,
       ((([0x3A, 0x02, 0x03, 0x01, 50, 9, 0, 123] : List Nat).drop i).take 8).getD 7 0] =
        checksum (((([0x3A, 0x02, 0x03, 0x01, 50, 9, 0, 123] : List Nat).drop i).take 8).take 6) :=
  read_loop_status_fields [0x3A, 0x02, 0x03, 0x01, 50, 9, 0, 123]
    (LightStatus.mk 50 4950) (by decide)

end NeewerControl
